import Mathlib

/-! Smart-Pointers: ownership model of `Smart-Pointers.cpp`

The program is a single translation unit: three small classes, the helper
functions `smartPointer`, `acceptParameter` and `accPar`, and `main`.
It is embedded as a step machine on an explicit program state:

* a heap of cells (address = index, never reused), each cell carrying the
  stored object, a liveness flag and the owner count that `std::make_shared`
  keeps next to the object;
* the live `std::unique_ptr` and `std::shared_ptr` instances, by variable name;
* the text written to `std::cout`;
* a log of released addresses and of the destructors that were selected.

Each source statement is one `Op`; a function body is the list of its
statements followed by the destruction of its locals in reverse order of
declaration, which is what leaving the scope does. `int` is taken to be 32 bits wide.
-/

namespace SmartPointers

/-! ## Data model -/

abbrev Addr := Nat
abbrev Name := String

/-- The three classes the source declares. -/
inductive Class
  | someObject
  | aPolyClass
  | aDerivedClass
  deriving DecidableEq, Repr

/-- Static element types of the smart pointers in the source. -/
inductive Ty
  | int
  | cls (c : Class)
  deriving DecidableEq, Repr

/-- A heap object: an `int` with its value, or a class instance with its dynamic type. -/
inductive Obj
  | int (v : Int)
  | inst (c : Class)
  deriving DecidableEq, Repr

/-- The type an object was created with. -/
def Obj.ty : Obj → Ty
  | .int _ => .int
  | .inst c => .cls c

/-- Ways in which a step can go wrong: undefined behaviour in C++ (`unbound` and
`illTyped` stand for programs the compiler rejects). -/
inductive Fault
  | nullDereference
  | signedOverflow
  | doubleRelease
  | dangling
  | unbound (x : Name)
  | illTyped
  | countUnderflow
  deriving DecidableEq, Repr

deriving instance DecidableEq for Except

/-- One heap allocation. `useCount` is the control-block counter of a
`std::shared_ptr` allocation and stays `0` for every other cell. -/
structure Cell where
  obj : Obj
  alive : Bool
  useCount : Nat
  deriving DecidableEq, Repr

/-- A `std::unique_ptr<elem>` instance: its static element type and the stored
pointer (`none` is the empty state). -/
structure UniquePtr where
  elem : Ty
  ptr : Option Addr
  deriving DecidableEq, Repr

/-- Program state. -/
structure State where
  heap : List Cell
  uniq : List (Name × UniquePtr)
  shared : List (Name × Option Addr)
  out : String
  released : List Addr
  torn : List (Addr × Class)
  deriving DecidableEq, Repr

/-- State at the entry of `main`. -/
def State.init : State :=
  { heap := [], uniq := [], shared := [], out := "", released := [], torn := [] }

/-! ## `int` -/

def INT_MIN : Int := -2147483648
def INT_MAX : Int := 2147483647

/-- The value fits in an `int`. -/
def representable (v : Int) : Prop := INT_MIN ≤ v ∧ v ≤ INT_MAX

instance (v : Int) : Decidable (representable v) := by
  unfold representable; infer_instance

/-- Text that `operator<<` writes for an `int`: decimal, with a leading minus sign. -/
def showInt (v : Int) : String := toString v

/-! ## Classes: inheritance, members, dispatch -/

/-- Append text to `std::cout`. -/
def print (t : String) (s : State) : State := { s with out := s.out ++ t }

/-- Body of `someObject::someMethod`. -/
def someObject.someMethod (s : State) : State :=
  print "\n\n" (print "Method called using smart pointer." s)

/-- Body of `aPolyClass::printMessage`. -/
def aPolyClass.printMessage (s : State) : State :=
  print "\n\n" (print "printMessage() defined in aPolyClass." s)

/-- Body of `aDerivedClass::printmessage`. -/
def aDerivedClass.printmessage (s : State) : State :=
  print "\n\n" (print "printMessage defined in aDerivedClass." s)

/-- A member function declaration: its name as spelled in the source, whether
it carries the keyword `virtual`, and its body. -/
structure MethodDecl where
  name : String
  isVirtual : Bool
  body : State → State

/-- Member functions declared in each class body. -/
def Class.methods : Class → List MethodDecl
  | .someObject => [⟨"someMethod", false, someObject.someMethod⟩]
  | .aPolyClass => [⟨"printMessage", true, aPolyClass.printMessage⟩]
  | .aDerivedClass => [⟨"printmessage", false, aDerivedClass.printmessage⟩]

/-- The class itself followed by its base classes, most derived first
(`class aDerivedClass : public aPolyClass`). -/
def Class.lineage : Class → List Class
  | .someObject => [.someObject]
  | .aPolyClass => [.aPolyClass]
  | .aDerivedClass => [.aDerivedClass, .aPolyClass]

/-- The class body declares a virtual destructor. No class in the source declares
any destructor. -/
def Class.declaresVirtualDestructor : Class → Bool
  | .someObject => false
  | .aPolyClass => false
  | .aDerivedClass => false

/-- The destructor of the class is virtual: it is declared so in the class or in a base. -/
def Class.hasVirtualDestructor (c : Class) : Bool :=
  c.lineage.any Class.declaresVirtualDestructor

/-- First declaration named `m` found in `c` or, failing that, in its bases. -/
def findMethod (m : String) : List Class → Option MethodDecl
  | [] => none
  | c :: cs =>
    match c.methods.find? (fun d => d.name == m) with
    | some d => some d
    | none => findMethod m cs

/-- Resolution of the call `x->m()` where `x` has static element type `st` and the
object has dynamic type `dyn`: name lookup in the static type; a virtual function is
then replaced by its final overrider, the declaration of the same name nearest to the
dynamic type. `none` when the static type has no such member. -/
def dispatch (st dyn : Class) (m : String) : Option (State → State) :=
  match findMethod m st.lineage with
  | none => none
  | some d =>
    if d.isVirtual then
      match findMethod m dyn.lineage with
      | some o => some o.body
      | none => some d.body
    else some d.body

/-- Destructors selected by `delete` through a pointer of static type `st` to the object
`o`: none for an `int`; for a class instance the destructor chain of the dynamic type
when the static type has a virtual destructor, and the chain of the static type
otherwise (the case the C++ standard leaves undefined when the two types differ). -/
def destructorsRun (st : Ty) (o : Obj) : List Class :=
  match st, o with
  | .cls c, .inst d => if c.hasVirtualDestructor then d.lineage else c.lineage
  | _, _ => []

/-- Pointer conversion `from*` to `to*`: identity or derived-to-base. -/
def convertible : Ty → Ty → Bool
  | .int, .int => true
  | .cls c, .cls b => b ∈ c.lineage
  | _, _ => false

/-! ## Heap primitives -/

/-- A `new` expression or the allocation inside a factory: a fresh cell at the end of the heap. -/
def alloc (o : Obj) (n : Nat) (s : State) : Addr × State :=
  (s.heap.length, { s with heap := s.heap ++ [⟨o, true, n⟩] })

/-- The live cell at an address. -/
def cellAt (a : Addr) (s : State) : Except Fault Cell :=
  match s.heap[a]? with
  | some c => if c.alive then .ok c else .error .dangling
  | none => .error .dangling

/-- Destroy the object at `a` through a pointer of static type `st` and free its storage. -/
def release (st : Ty) (a : Addr) (s : State) : Except Fault State :=
  match s.heap[a]? with
  | some c =>
    if c.alive then
      .ok { s with
        heap := s.heap.set a { c with alive := false }
        released := s.released ++ [a]
        torn := s.torn ++ (destructorsRun st c.obj).map (fun k => (a, k)) }
    else .error .doubleRelease
  | none => .error .dangling

/-! ## `std::unique_ptr` -/

def lookupUnique (x : Name) (s : State) : Except Fault UniquePtr :=
  match s.uniq.lookup x with
  | some u => .ok u
  | none => .error (.unbound x)

/-- Overwrite the instance named `x`. -/
def setUnique (x : Name) (u : UniquePtr) (s : State) : State :=
  { s with uniq := s.uniq.map (fun e => if e.1 = x then (x, u) else e) }

/-- The constructor `unique_ptr<elem>(raw)`: a new instance named `x` owning `raw`. -/
def uniqueFromRaw (x : Name) (elem : Ty) (raw : Addr) (s : State) : State :=
  { s with uniq := (x, ⟨elem, some raw⟩) :: s.uniq }

/-- The statement `std::unique_ptr<elem> x(new T{...});`. -/
def uniqueFromNew (x : Name) (elem : Ty) (o : Obj) (s : State) : State :=
  let r := alloc o 0 s
  uniqueFromRaw x elem r.1 r.2

/-- The call `std::make_unique<T>(...)`, its result named `x`: allocates, then wraps. -/
def make_unique (x : Name) (elem : Ty) (o : Obj) (s : State) : State :=
  let r := alloc o 0 s
  uniqueFromRaw x elem r.1 r.2

/-- The converting move constructor `unique_ptr<elem> dst(std::move(src))`: `src.release()`
empties the source, then `dst` is built from the pointer it returned. -/
def moveUnique (dst : Name) (elem : Ty) (src : Name) (s : State) : Except Fault State :=
  match lookupUnique src s with
  | .error e => .error e
  | .ok u =>
    if convertible u.elem elem then
      let s1 := setUnique src ⟨u.elem, none⟩ s
      .ok { s1 with uniq := (dst, ⟨elem, u.ptr⟩) :: s1.uniq }
    else .error .illTyped

/-- The address an owning `unique_ptr` stores; dereferencing an empty one is the fault. -/
def derefUnique (x : Name) (s : State) : Except Fault Addr :=
  match lookupUnique x s with
  | .error e => .error e
  | .ok u =>
    match u.ptr with
    | some a => .ok a
    | none => .error .nullDereference

/-- The destructor of the instance named `x`: `default_delete<elem>` on the stored pointer
when there is one, nothing when empty; the instance stops existing. -/
def destroyUnique (x : Name) (s : State) : Except Fault State :=
  match lookupUnique x s with
  | .error e => .error e
  | .ok u =>
    let s1 := { s with uniq := s.uniq.filter (fun e => e.1 ≠ x) }
    match u.ptr with
    | some a => release u.elem a s1
    | none => .ok s1

/-! ## `std::shared_ptr` -/

def lookupShared (x : Name) (s : State) : Except Fault (Option Addr) :=
  match s.shared.lookup x with
  | some p => .ok p
  | none => .error (.unbound x)

/-- The call `std::make_shared<int>(v)`, its result named `x`: one allocation holding
the value and an owner count of 1. -/
def make_shared (x : Name) (o : Obj) (s : State) : State :=
  let r := alloc o 1 s
  { r.2 with shared := (x, some r.1) :: r.2.shared }

/-- The copy constructor `std::shared_ptr<int> dst = src;`: the same pointer, and one more owner. -/
def copyShared (dst src : Name) (s : State) : Except Fault State :=
  match lookupShared src s with
  | .error e => .error e
  | .ok none => .ok { s with shared := (dst, none) :: s.shared }
  | .ok (some a) =>
    match cellAt a s with
    | .error e => .error e
    | .ok c =>
      .ok { s with
        heap := s.heap.set a { c with useCount := c.useCount + 1 }
        shared := (dst, some a) :: s.shared }

def derefShared (x : Name) (s : State) : Except Fault Addr :=
  match lookupShared x s with
  | .error e => .error e
  | .ok (some a) => .ok a
  | .ok none => .error .nullDereference

/-- The query `x.use_count()`. -/
def use_count (x : Name) (s : State) : Except Fault Nat :=
  match lookupShared x s with
  | .error e => .error e
  | .ok none => .ok 0
  | .ok (some a) =>
    match cellAt a s with
    | .error e => .error e
    | .ok c => .ok c.useCount

/-- The destructor of the `shared_ptr` named `x`: one owner fewer, and the value is
released when no owner is left, as the type it was made with. -/
def destroyShared (x : Name) (s : State) : Except Fault State :=
  match lookupShared x s with
  | .error e => .error e
  | .ok p =>
    let s1 := { s with shared := s.shared.filter (fun e => e.1 ≠ x) }
    match p with
    | none => .ok s1
    | some a =>
      match cellAt a s1 with
      | .error e => .error e
      | .ok c =>
        if c.useCount = 0 then .error .countUnderflow
        else
          let s2 := { s1 with heap := s1.heap.set a { c with useCount := c.useCount - 1 } }
          if c.useCount - 1 = 0 then release c.obj.ty a s2 else .ok s2

/-! ## Statements -/

/-- The value of `*x` for a pointer to `int`. -/
def readInt (a : Addr) (s : State) : Except Fault Int :=
  match cellAt a s with
  | .error e => .error e
  | .ok c =>
    match c.obj with
    | .int v => .ok v
    | .inst _ => .error .illTyped

/-- The value of `*x` for the `unique_ptr<int>` named `x`. -/
def derefIntUnique (x : Name) (s : State) : Except Fault Int :=
  match derefUnique x s with
  | .error e => .error e
  | .ok a => readInt a s

/-- The value of `*x` for the `shared_ptr<int>` named `x`. -/
def derefIntShared (x : Name) (s : State) : Except Fault Int :=
  match derefShared x s with
  | .error e => .error e
  | .ok a => readInt a s

/-- Operands of a `std::cout << ...` chain. -/
inductive OutItem
  | str (t : String)
  | uderef (x : Name)
  | sderef (x : Name)
  deriving DecidableEq, Repr

/-- The statement `std::cout << i₁ << i₂ << ...;`, operands written left to right. -/
def cout : List OutItem → State → Except Fault State
  | [], s => .ok s
  | .str t :: is, s => cout is (print t s)
  | .uderef x :: is, s =>
    match derefIntUnique x s with
    | .error e => .error e
    | .ok v => cout is (print (showInt v) s)
  | .sderef x :: is, s =>
    match derefIntShared x s with
    | .error e => .error e
    | .ok v => cout is (print (showInt v) s)

/-- The statement `*x += k;` on a `unique_ptr<int>`. -/
def addAssign (x : Name) (k : Int) (s : State) : Except Fault State :=
  match derefUnique x s with
  | .error e => .error e
  | .ok a =>
    match cellAt a s with
    | .error e => .error e
    | .ok c =>
      match c.obj with
      | .inst _ => .error .illTyped
      | .int v =>
        if representable (v + k) then
          .ok { s with heap := s.heap.set a { c with obj := .int (v + k) } }
        else .error .signedOverflow

/-- The statement `x->m();` on a `unique_ptr` to a class. -/
def callMethod (x : Name) (m : String) (s : State) : Except Fault State :=
  match lookupUnique x s with
  | .error e => .error e
  | .ok u =>
    match u.ptr with
    | none => .error .nullDereference
    | some a =>
      match cellAt a s with
      | .error e => .error e
      | .ok c =>
        match u.elem, c.obj with
        | .cls st, .inst dyn =>
          match dispatch st dyn m with
          | some body => .ok (body s)
          | none => .error .illTyped
        | _, _ => .error .illTyped

/-- The statements that occur in the source. -/
inductive Op
  | uniqueFromNew (x : Name) (elem : Ty) (o : Obj)
  | makeUnique (x : Name) (elem : Ty) (o : Obj)
  | moveUnique (dst : Name) (elem : Ty) (src : Name)
  | makeShared (x : Name) (o : Obj)
  | copyShared (dst src : Name)
  | cout (items : List OutItem)
  | call (x : Name) (m : String)
  | addAssign (x : Name) (k : Int)
  | destroyUnique (x : Name)
  | destroyShared (x : Name)
  deriving DecidableEq, Repr

/-- One step. -/
def exec : Op → State → Except Fault State
  | .uniqueFromNew x elem o, s => .ok (uniqueFromNew x elem o s)
  | .makeUnique x elem o, s => .ok (make_unique x elem o s)
  | .moveUnique dst elem src, s => moveUnique dst elem src s
  | .makeShared x o, s => .ok (make_shared x o s)
  | .copyShared dst src, s => copyShared dst src s
  | .cout items, s => cout items s
  | .call x m, s => callMethod x m s
  | .addAssign x k, s => addAssign x k s
  | .destroyUnique x, s => destroyUnique x s
  | .destroyShared x, s => destroyShared x s

/-- Run a statement list to its end, stopping at the first fault. -/
def run : List Op → State → Except Fault State
  | [], s => .ok s
  | op :: ops, s =>
    match exec op s with
    | .ok s1 => run ops s1
    | .error e => .error e

/-- The states a run passes through: the state before each statement, then the last one. -/
def trace : List Op → State → List State
  | [], s => [s]
  | op :: ops, s =>
    s :: (match exec op s with
      | .ok s1 => trace ops s1
      | .error _ => [])

/-! ## The functions of the source -/

/-- The function `smartPointer`. -/
def smartPointer : List Op :=
  [ .uniqueFromNew "sObj" (.cls .someObject) (.inst .someObject),
    .call "sObj" "someMethod",
    .destroyUnique "sObj" ]

/-- The function `acceptParameter(std::unique_ptr<int>&& ptr)`. The parameter is a
reference: `ptr` names the caller's instance, and no `unique_ptr` is constructed. -/
def acceptParameter (ptr : Name) : List Op :=
  [ .addAssign ptr 10,
    .cout [.str "Smart pointer parameter + 10: ", .uderef ptr, .str "\n\n"] ]

/-- The function `accPar(const std::shared_ptr<int>* ptr)`: an empty body. -/
def accPar (_ptr : Name) : List Op := []

/-- Name of the temporary `std::make_unique<aDerivedClass>()` returns in `main`. -/
def tmpDerived : Name := "make_unique<aDerivedClass>()"

/-- The function `main`. `std::move(ptrBar)` is a cast to an rvalue reference, to which
the parameter of `acceptParameter` binds. The statements are numbered from 0; state `n`
of the trace is the state in which statement `n` starts. -/
def main : List Op :=
  [ .uniqueFromNew "p" .int (.int 235),                                   -- 0
    .cout [.uderef "p", .str "\n\n"],                                     -- 1
    .makeUnique "pp" .int (.int 711),                                     -- 2
    .cout [.uderef "pp", .str "\n\n"],                                    -- 3
    .makeUnique tmpDerived (.cls .aDerivedClass) (.inst .aDerivedClass),  -- 4
    .moveUnique "ppp" (.cls .aPolyClass) tmpDerived,                      -- 5
    .destroyUnique tmpDerived,                                            -- 6
    .call "ppp" "printMessage" ]                                          -- 7
  ++ smartPointer ++                                                      -- 8, 9, 10
  [ .makeShared "p1" (.int 1317),                                         -- 11
    .copyShared "p2" "p1",                                                -- 12
    .copyShared "p3" "p2",                                                -- 13
    .cout [.sderef "p3", .str "\n\n"],                                    -- 14
    .makeUnique "ptrBar" .int (.int 1719) ]                               -- 15
  ++ acceptParameter "ptrBar" ++                                          -- 16, 17
  [ .cout [.str "ptrBar: ", .uderef "ptrBar", .str "\n\n"],               -- 18
    .destroyUnique "ptrBar",                                              -- 19
    .destroyShared "p3",                                                  -- 20
    .destroyShared "p2",                                                  -- 21
    .destroyShared "p1",                                                  -- 22
    .destroyUnique "ppp",                                                 -- 23
    .destroyUnique "pp",                                                  -- 24
    .destroyUnique "p" ]                                                  -- 25

/-- State `n` of the run of `main`. -/
def stateAt (n : Nat) : State := (trace main State.init).getD n State.init

/-! ## Observations on a state -/

/-- The `unique_ptr` named `x` exists and owns a value. -/
def isOwningUnique (x : Name) (s : State) : Bool :=
  match s.uniq.lookup x with
  | some u => u.ptr.isSome
  | none => false

/-- The `unique_ptr` named `x` exists and is empty. -/
def isEmptyUnique (x : Name) (s : State) : Bool :=
  match s.uniq.lookup x with
  | some u => u.ptr.isNone
  | none => false

/-- The `shared_ptr` named `x` exists and owns a value. -/
def isOwningShared (x : Name) (s : State) : Bool :=
  match s.shared.lookup x with
  | some p => p.isSome
  | none => false

/-- Addresses owned by the live `unique_ptr` instances, one entry per owning instance. -/
def ownedUnique (s : State) : List Addr := s.uniq.filterMap (fun e => e.2.ptr)

/-- Names of the live `unique_ptr` instances that own the address `a`. -/
def uniqueOwnersOf (a : Addr) (s : State) : List Name :=
  (s.uniq.filter (fun e => e.2.ptr = some a)).map Prod.fst

/-- A container a statement dereferences. -/
inductive Site
  | u (x : Name)
  | s (x : Name)
  deriving DecidableEq, Repr

/-- The container at the site owns a value. -/
def Site.owning : Site → State → Bool
  | .u x, st => isOwningUnique x st
  | .s x, st => isOwningShared x st

def OutItem.derefs : OutItem → List Site
  | .str _ => []
  | .uderef x => [.u x]
  | .sderef x => [.s x]

/-- The dereferences a statement performs (`*x` and `x->`), in order. -/
def Op.derefs : Op → List Site
  | .cout items => items.flatMap OutItem.derefs
  | .call x _ => [.u x]
  | .addAssign x _ => [.u x]
  | _ => []

/-- Statements that copy-construct a chain of `shared_ptr`s: each pair is
`(new instance, instance it is copied from)`. -/
def copyChain (chain : List (Name × Name)) : List Op :=
  chain.map (fun e => Op.copyShared e.1 e.2)

/-- Every copy in the chain is made from the original or from an earlier copy. -/
def validChain : List Name → List (Name × Name) → Bool
  | _, [] => true
  | known, e :: rest => decide (e.2 ∈ known) && validChain (e.1 :: known) rest

/-! ## Helper lemmas -/

theorem print_out (t : String) (s : State) : (print t s).out = s.out ++ t := rfl

theorem lt_of_getElem?_heap {s : State} {a : Addr} {c : Cell} (h : s.heap[a]? = some c) :
    a < s.heap.length := by
  rcases List.getElem?_eq_some.mp h with ⟨hlt, _⟩
  exact hlt

/-- Printing changes nothing but the output. -/
theorem cout_frame (items : List OutItem) (s s1 : State) (h : cout items s = .ok s1) :
    s1.uniq = s.uniq ∧ s1.shared = s.shared ∧ s1.heap = s.heap := by
  induction items generalizing s with
  | nil =>
    simp only [cout] at h
    cases h
    exact ⟨rfl, rfl, rfl⟩
  | cons i is ih =>
    cases i with
    | str t =>
      simp only [cout] at h
      exact ih (print t s) h
    | uderef x =>
      simp only [cout] at h
      cases hd : derefIntUnique x s with
      | error e => rw [hd] at h; cases h
      | ok v => rw [hd] at h; exact ih (print (showInt v) s) h
    | sderef x =>
      simp only [cout] at h
      cases hd : derefIntShared x s with
      | error e => rw [hd] at h; cases h
      | ok v => rw [hd] at h; exact ih (print (showInt v) s) h

/-- The statement `*x += k` changes no smart pointer instance. -/
theorem addAssign_frame (x : Name) (k : Int) (s s1 : State) (h : addAssign x k s = .ok s1) :
    s1.uniq = s.uniq ∧ s1.shared = s.shared := by
  unfold addAssign at h
  cases hd : derefUnique x s with
  | error e => rw [hd] at h; cases h
  | ok a =>
    rw [hd] at h
    dsimp only at h
    cases hc : cellAt a s with
    | error e => rw [hc] at h; cases h
    | ok c =>
      rw [hc] at h
      dsimp only at h
      cases ho : c.obj with
      | inst d => rw [ho] at h; cases h
      | int v =>
        rw [ho] at h
        dsimp only at h
        split at h
        · cases h; exact ⟨rfl, rfl⟩
        · cases h

/-- The function `acceptParameter` never creates, empties or destroys a smart pointer
instance. -/
theorem acceptParameter_keeps_instances (x : Name) (s s1 : State)
    (h : run (acceptParameter x) s = .ok s1) : s1.uniq = s.uniq ∧ s1.shared = s.shared := by
  simp only [acceptParameter, run, exec] at h
  cases h1 : addAssign x 10 s with
  | error e => rw [h1] at h; cases h
  | ok s2 =>
    rw [h1] at h
    dsimp only at h
    cases h2 : cout [.str "Smart pointer parameter + 10: ", .uderef x, .str "\n\n"] s2 with
    | error e => rw [h2] at h; cases h
    | ok s3 =>
      rw [h2] at h
      have e : s3 = s1 := by injection h
      subst e
      obtain ⟨a1, a2⟩ := addAssign_frame x 10 s s2 h1
      obtain ⟨b1, b2, _⟩ := cout_frame _ s2 s3 h2
      exact ⟨b1.trans a1, b2.trans a2⟩

/-- What a copy chain maintains: the allocation at `a` is live, holds `v` and counts `n`
owners, and every instance created so far points to it. -/
def ChainInv (a : Addr) (v : Int) (n : Nat) (known : List Name) (s : State) : Prop :=
  s.heap[a]? = some ⟨.int v, true, n⟩ ∧ ∀ x ∈ known, s.shared.lookup x = some (some a)

theorem make_shared_chainInv (x : Name) (v : Int) (s : State) :
    ChainInv s.heap.length v 1 [x] (make_shared x (.int v) s) := by
  constructor
  · simp [make_shared, alloc]
  · intro y hy
    have e : y = x := by simpa using hy
    subst e
    simp [make_shared, alloc, List.lookup]

theorem copyShared_chainInv {a : Addr} {v : Int} {n : Nat} {known : List Name} {s : State}
    (dst src : Name) (hinv : ChainInv a v n known s) (hsrc : src ∈ known) :
    ∃ s1, copyShared dst src s = .ok s1 ∧ ChainInv a v (n + 1) (dst :: known) s1 := by
  obtain ⟨hcell, hknown⟩ := hinv
  have hlt : a < s.heap.length := lt_of_getElem?_heap hcell
  refine ⟨{ s with
      heap := s.heap.set a ⟨.int v, true, n + 1⟩
      shared := (dst, some a) :: s.shared }, ?_, ?_, ?_⟩
  · simp [copyShared, lookupShared, cellAt, hknown src hsrc, hcell]
  · simp [hlt]
  · intro y hy
    rcases List.mem_cons.mp hy with e | hmem
    · subst e
      simp [List.lookup]
    · by_cases hyd : y = dst
      · subst hyd
        simp [List.lookup]
      · have hne : (y == dst) = false := by simpa using hyd
        simp [List.lookup, hne, hknown y hmem]

theorem run_copyChain_chainInv {a : Addr} {v : Int} (chain : List (Name × Name)) :
    ∀ (n : Nat) (known : List Name) (s : State), ChainInv a v n known s →
      validChain known chain = true →
      ∃ s1, run (copyChain chain) s = .ok s1 ∧
        ChainInv a v (n + chain.length) (chain.reverse.map Prod.fst ++ known) s1 := by
  induction chain with
  | nil =>
    intro n known s hinv _
    exact ⟨s, rfl, by simpa using hinv⟩
  | cons e rest ih =>
    intro n known s hinv hvalid
    simp only [validChain, Bool.and_eq_true, decide_eq_true_eq] at hvalid
    obtain ⟨s1, hstep, hinv1⟩ := copyShared_chainInv e.1 e.2 hinv hvalid.1
    obtain ⟨s2, hrun, hinv2⟩ := ih (n + 1) (e.1 :: known) s1 hinv1 hvalid.2
    refine ⟨s2, ?_, ?_⟩
    · simp only [copyChain, List.map_cons, run, exec, hstep]
      exact hrun
    · have hlen : n + (e :: rest).length = n + 1 + rest.length := by
        simp only [List.length_cons]; omega
      rw [hlen]
      simpa [List.append_assoc] using hinv2

theorem chainInv_observe {a : Addr} {v : Int} {n : Nat} {known : List Name} {s : State}
    (hinv : ChainInv a v n known s) (x : Name) (hx : x ∈ known) :
    use_count x s = .ok n ∧ derefIntShared x s = .ok v := by
  obtain ⟨hcell, hknown⟩ := hinv
  simp [use_count, derefIntShared, derefShared, lookupShared, cellAt, readInt,
    hknown x hx, hcell]

theorem derefUnique_error_of_not_owning (x : Name) (s : State)
    (h : isOwningUnique x s = false) : ∃ e, derefUnique x s = .error e := by
  unfold isOwningUnique at h
  unfold derefUnique lookupUnique
  cases hl : s.uniq.lookup x with
  | none => exact ⟨_, rfl⟩
  | some u =>
    rw [hl] at h
    cases hp : u.ptr with
    | none => exact ⟨.nullDereference, by simp [hp]⟩
    | some a => simp [hp] at h

theorem derefShared_error_of_not_owning (x : Name) (s : State)
    (h : isOwningShared x s = false) : ∃ e, derefShared x s = .error e := by
  unfold isOwningShared at h
  unfold derefShared lookupShared
  cases hl : s.shared.lookup x with
  | none => exact ⟨_, rfl⟩
  | some p =>
    rw [hl] at h
    cases p with
    | none => exact ⟨.nullDereference, rfl⟩
    | some a => simp at h

theorem cout_error_of_not_owning (items : List OutItem) (d : Site) :
    ∀ s : State, d ∈ items.flatMap OutItem.derefs → d.owning s = false →
      ∃ e, cout items s = .error e := by
  induction items with
  | nil => intro s hd _; simp at hd
  | cons i is ih =>
    intro s hd hown
    cases i with
    | str t =>
      have hd1 : d ∈ is.flatMap OutItem.derefs := by
        simpa [List.flatMap_cons, OutItem.derefs] using hd
      have hown1 : d.owning (print t s) = false := by
        cases d <;> exact hown
      simpa [cout] using ih (print t s) hd1 hown1
    | uderef x =>
      simp only [cout]
      cases hv : derefIntUnique x s with
      | error e => exact ⟨e, rfl⟩
      | ok v =>
        have hd1 : d = .u x ∨ d ∈ is.flatMap OutItem.derefs := by
          simpa [List.flatMap_cons, OutItem.derefs] using hd
        rcases hd1 with e | hd1
        · subst e
          obtain ⟨e, he⟩ := derefUnique_error_of_not_owning x s hown
          simp [derefIntUnique, he] at hv
        · have hown1 : d.owning (print (showInt v) s) = false := by
            cases d <;> exact hown
          exact ih _ hd1 hown1
    | sderef x =>
      simp only [cout]
      cases hv : derefIntShared x s with
      | error e => exact ⟨e, rfl⟩
      | ok v =>
        have hd1 : d = .s x ∨ d ∈ is.flatMap OutItem.derefs := by
          simpa [List.flatMap_cons, OutItem.derefs] using hd
        rcases hd1 with e | hd1
        · subst e
          obtain ⟨e, he⟩ := derefShared_error_of_not_owning x s hown
          simp [derefIntShared, he] at hv
        · have hown1 : d.owning (print (showInt v) s) = false := by
            cases d <;> exact hown
          exact ih _ hd1 hown1

/-- A statement faults when a container it dereferences does not own a value: the sites
listed by `Op.derefs` are dereferences indeed. -/
theorem exec_error_of_not_owning (op : Op) (d : Site) (s : State)
    (hd : d ∈ op.derefs) (hown : d.owning s = false) : ∃ e, exec op s = .error e := by
  cases op with
  | cout items => exact cout_error_of_not_owning items d s hd hown
  | call x m =>
    have e : d = .u x := by simpa [Op.derefs] using hd
    subst e
    have hown1 : isOwningUnique x s = false := hown
    unfold isOwningUnique at hown1
    simp only [exec, callMethod, lookupUnique]
    cases hl : s.uniq.lookup x with
    | none => exact ⟨_, rfl⟩
    | some u =>
      rw [hl] at hown1
      cases hp : u.ptr with
      | none => exact ⟨.nullDereference, by simp [hp]⟩
      | some a => simp [hp] at hown1
  | addAssign x k =>
    have e : d = .u x := by simpa [Op.derefs] using hd
    subst e
    obtain ⟨e, he⟩ := derefUnique_error_of_not_owning x s hown
    exact ⟨e, by simp [exec, addAssign, he]⟩
  | uniqueFromNew _ _ _ => simp [Op.derefs] at hd
  | makeUnique _ _ _ => simp [Op.derefs] at hd
  | moveUnique _ _ _ => simp [Op.derefs] at hd
  | makeShared _ _ => simp [Op.derefs] at hd
  | copyShared _ _ => simp [Op.derefs] at hd
  | destroyUnique _ => simp [Op.derefs] at hd
  | destroyShared _ => simp [Op.derefs] at hd

/-! ## Claims -/

/-- C1 (refuted as stated): in `main`, the call `acceptParameter(std::move(ptrBar))` is
entered with `ptrBar` owning 1719, it returns in state 18, and there `ptrBar` is not
empty. -/
theorem ptrBar_not_empty_after_acceptParameter :
    derefIntUnique "ptrBar" (stateAt 16) = .ok 1719 ∧
    run (acceptParameter "ptrBar") (stateAt 16) = .ok (stateAt 18) ∧
    isEmptyUnique "ptrBar" (stateAt 18) = false := by
  decide

/-- C1 (amended): in `main`, after the call `acceptParameter(std::move(ptrBar))` has
returned, `ptrBar` is still owning: it owns the same allocation as before the call, the
value of which is now 1729, and the statement after the call prints `ptrBar: 1729`. -/
theorem ptrBar_still_owning_after_acceptParameter :
    run (acceptParameter "ptrBar") (stateAt 16) = .ok (stateAt 18) ∧
    (stateAt 18).uniq = (stateAt 16).uniq ∧
    isOwningUnique "ptrBar" (stateAt 18) = true ∧
    derefUnique "ptrBar" (stateAt 18) = derefUnique "ptrBar" (stateAt 16) ∧
    derefIntUnique "ptrBar" (stateAt 18) = .ok 1729 ∧
    (stateAt 19).out = (stateAt 18).out ++ "ptrBar: 1729\n\n" := by
  decide

/-- C2 (the code departs from the claim): statement 7 of `main` is `ppp->printMessage()`
on the `unique_ptr<aPolyClass>` that owns an `aDerivedClass` instance; it appends the text
of `aPolyClass::printMessage` to the output, not the text found in `aDerivedClass`. -/
theorem main_printMessage_prints_base_text :
    main[7]? = some (.call "ppp" "printMessage") ∧
    (stateAt 7).uniq.lookup "ppp" = some ⟨.cls .aPolyClass, some 2⟩ ∧
    (stateAt 7).heap[2]? = some ⟨.inst .aDerivedClass, true, 0⟩ ∧
    exec (.call "ppp" "printMessage") (stateAt 7) = .ok (stateAt 8) ∧
    (stateAt 8).out = (stateAt 7).out ++ "printMessage() defined in aPolyClass.\n\n" ∧
    (stateAt 8).out ≠ (stateAt 7).out ++ "printMessage defined in aDerivedClass.\n\n" := by
  decide

/-- C3: for every owning `unique_ptr<int>` whose value `v` has `v + 10` representable,
`acceptParameter` returns, leaves the owned value equal to `v + 10`, and appends
`Smart pointer parameter + 10: `, the decimal text of `v + 10` and two newlines to the
output; in `main` the value 1719 becomes 1729 and `1729` is printed. -/
theorem acceptParameter_adds_ten (s : State) (x : Name) (a : Addr) (c : Cell) (v : Int)
    (hx : s.uniq.lookup x = some ⟨.int, some a⟩)
    (hc : s.heap[a]? = some c) (halive : c.alive = true) (hobj : c.obj = .int v)
    (hrep : representable (v + 10)) :
    (∃ s1, run (acceptParameter x) s = .ok s1 ∧
      derefIntUnique x s1 = .ok (v + 10) ∧
      s1.out = s.out ++ "Smart pointer parameter + 10: " ++ showInt (v + 10) ++ "\n\n") ∧
    derefIntUnique "ptrBar" (stateAt 16) = .ok 1719 ∧
    derefIntUnique "ptrBar" (stateAt 17) = .ok 1729 ∧
    (stateAt 18).out = (stateAt 16).out ++ "Smart pointer parameter + 10: 1729\n\n" := by
  refine ⟨?_, by decide, by decide, by decide⟩
  have hlt : a < s.heap.length := lt_of_getElem?_heap hc
  refine ⟨print "\n\n" (print (showInt (v + 10)) (print "Smart pointer parameter + 10: "
    { s with heap := s.heap.set a { c with obj := .int (v + 10) } })), ?_, ?_, ?_⟩
  · simp [acceptParameter, run, exec, addAssign, cout, derefIntUnique, derefUnique,
      lookupUnique, cellAt, readInt, print, hx, hc, halive, hobj, hrep, hlt]
  · simp [derefIntUnique, derefUnique, lookupUnique, cellAt, readInt, print, hx, halive, hlt]
  · simp [print, String.append_assoc]

/-- Witness for C3: the state in which `main` enters `acceptParameter`. -/
theorem acceptParameter_adds_ten_witness :
    (stateAt 16).uniq.lookup "ptrBar" = some ⟨.int, some 5⟩ ∧
    (stateAt 16).heap[5]? = some ⟨.int 1719, true, 0⟩ ∧
    representable (1719 + 10) ∧
    ((∃ s1, run (acceptParameter "ptrBar") (stateAt 16) = .ok s1 ∧
      derefIntUnique "ptrBar" s1 = .ok (1719 + 10) ∧
      s1.out = (stateAt 16).out ++ "Smart pointer parameter + 10: " ++ showInt (1719 + 10)
        ++ "\n\n") ∧
    derefIntUnique "ptrBar" (stateAt 16) = .ok 1719 ∧
    derefIntUnique "ptrBar" (stateAt 17) = .ok 1729 ∧
    (stateAt 18).out = (stateAt 16).out ++ "Smart pointer parameter + 10: 1729\n\n") :=
  ⟨by decide, by decide, by decide,
    acceptParameter_adds_ten (stateAt 16) "ptrBar" 5 ⟨.int 1719, true, 0⟩ 1719
      (by decide) (by decide) rfl rfl (by decide)⟩

/-- C4: for every value `v`, a `unique_ptr<int>` built from `new int{v}` and one built by
`make_unique<int>(v)` both dereference to `v` right after construction; in `main`, `*p`
is 235 and `*pp` is 711, and these are the values printed. -/
theorem deref_after_construction (v : Int) (x : Name) (s : State) :
    derefIntUnique x (uniqueFromNew x .int (.int v) s) = .ok v ∧
    derefIntUnique x (make_unique x .int (.int v) s) = .ok v ∧
    exec (.uniqueFromNew "p" .int (.int 235)) (stateAt 0) = .ok (stateAt 1) ∧
    derefIntUnique "p" (stateAt 1) = .ok 235 ∧
    (stateAt 2).out = "235\n\n" ∧
    exec (.makeUnique "pp" .int (.int 711)) (stateAt 2) = .ok (stateAt 3) ∧
    derefIntUnique "pp" (stateAt 3) = .ok 711 ∧
    (stateAt 4).out = "235\n\n711\n\n" := by
  refine ⟨?_, ?_, by decide, by decide, by decide, by decide, by decide, by decide⟩
  · simp [derefIntUnique, derefUnique, lookupUnique, uniqueFromNew, uniqueFromRaw, alloc,
      readInt, cellAt, List.lookup]
  · simp [derefIntUnique, derefUnique, lookupUnique, make_unique, uniqueFromRaw, alloc,
      readInt, cellAt, List.lookup]

/-- C5: for every `N` and every chain of `N` copy constructions that starts from a
`shared_ptr` made with value `v` (each copy taken from the original or from an earlier
copy), the run succeeds, and afterwards every instance reports `N + 1` owners and
dereferences to `v`; in `main`, after `p2 = p1` and `p3 = p2`, the three instances yield
1317 and report 3 owners. -/
theorem shared_copy_chain (s : State) (x0 : Name) (v : Int) (chain : List (Name × Name))
    (hvalid : validChain [x0] chain = true) :
    (∃ s1, run (.makeShared x0 (.int v) :: copyChain chain) s = .ok s1 ∧
      ∀ x ∈ x0 :: chain.map Prod.fst,
        use_count x s1 = .ok (chain.length + 1) ∧ derefIntShared x s1 = .ok v) ∧
    run [.makeShared "p1" (.int 1317), .copyShared "p2" "p1", .copyShared "p3" "p2"]
      (stateAt 11) = .ok (stateAt 14) ∧
    (∀ x ∈ ["p1", "p2", "p3"],
      use_count x (stateAt 14) = .ok 3 ∧ derefIntShared x (stateAt 14) = .ok 1317) ∧
    (stateAt 15).out = (stateAt 14).out ++ "1317\n\n" := by
  refine ⟨?_, by decide, by decide, by decide⟩
  obtain ⟨s1, hrun, hinv⟩ :=
    run_copyChain_chainInv chain 1 [x0] _ (make_shared_chainInv x0 v s) hvalid
  refine ⟨s1, ?_, ?_⟩
  · simp only [run, exec]
    exact hrun
  · intro x hx
    have hmem : x ∈ chain.reverse.map Prod.fst ++ [x0] := by
      rcases List.mem_cons.mp hx with e | h
      · simp [e]
      · have : x ∈ chain.reverse.map Prod.fst := by
          simpa [List.map_reverse] using h
        exact List.mem_append_left _ this
    have hobs := chainInv_observe hinv x hmem
    rw [Nat.add_comm] at hobs
    exact hobs

/-- Witness for C5: the chain `p2 = p1; p3 = p2` of `main`, started in the state in which
`main` makes `p1`. -/
theorem shared_copy_chain_witness :
    validChain ["p1"] [("p2", "p1"), ("p3", "p2")] = true ∧
    ((∃ s1, run (.makeShared "p1" (.int 1317) :: copyChain [("p2", "p1"), ("p3", "p2")])
        (stateAt 11) = .ok s1 ∧
      ∀ x ∈ "p1" :: [("p2", "p1"), ("p3", "p2")].map Prod.fst,
        use_count x s1 = .ok ([("p2", "p1"), ("p3", "p2")].length + 1) ∧
        derefIntShared x s1 = .ok 1317) ∧
    run [.makeShared "p1" (.int 1317), .copyShared "p2" "p1", .copyShared "p3" "p2"]
      (stateAt 11) = .ok (stateAt 14) ∧
    (∀ x ∈ ["p1", "p2", "p3"],
      use_count x (stateAt 14) = .ok 3 ∧ derefIntShared x (stateAt 14) = .ok 1317) ∧
    (stateAt 15).out = (stateAt 14).out ++ "1317\n\n") :=
  ⟨by decide, shared_copy_chain (stateAt 11) "p1" 1317 [("p2", "p1"), ("p3", "p2")] (by decide)⟩

/-- C7: in every state of the run of `main`, the bodies of `smartPointer` and
`acceptParameter` included, no address is owned by two `unique_ptr` instances and no
instance name occurs twice; `p`, `pp`, `ppp`, `sObj` and `ptrBar` own five different
allocations; while `acceptParameter` runs, `ptrBar` is the only owner of its allocation. -/
theorem unique_owner_invariant :
    (trace main State.init).length = main.length + 1 ∧
    (∀ s ∈ trace main State.init, (ownedUnique s).Nodup ∧ (s.uniq.map Prod.fst).Nodup) ∧
    (∀ s ∈ trace main State.init, ∀ a < s.heap.length, (uniqueOwnersOf a s).length ≤ 1) ∧
    (derefUnique "p" (stateAt 16) = .ok 0 ∧ derefUnique "pp" (stateAt 16) = .ok 1 ∧
      derefUnique "ppp" (stateAt 16) = .ok 2 ∧ derefUnique "sObj" (stateAt 9) = .ok 3 ∧
      derefUnique "ptrBar" (stateAt 16) = .ok 5) ∧
    (∀ s ∈ [stateAt 16, stateAt 17, stateAt 18],
      uniqueOwnersOf 5 s = ["ptrBar"] ∧ s.uniq.length = 4) := by
  decide

/-- C8 (refuted as stated): `aPolyClass` has no virtual destructor, and when `main`
releases `ppp` (statement 23) no destructor of `aDerivedClass` is selected. -/
theorem aPolyClass_no_virtual_destructor :
    Class.hasVirtualDestructor .aPolyClass = false ∧
    exec (.destroyUnique "ppp") (stateAt 23) = .ok (stateAt 24) ∧
    (2, Class.aDerivedClass) ∉ (stateAt 24).torn ∧
    (2, Class.aDerivedClass) ∉ (stateAt 26).torn := by
  decide

/-- C8 (amended): `aPolyClass` declares no destructor and `printMessage` is its only
virtual member; `ppp` is a `unique_ptr<aPolyClass>` owning an `aDerivedClass` instance;
when it is released at the end of `main`, the allocation is released once and the
destructor is selected by the static type: the one of `aPolyClass`, none of
`aDerivedClass`. -/
theorem ppp_release_is_statically_dispatched :
    Class.declaresVirtualDestructor .aPolyClass = false ∧
    Class.hasVirtualDestructor .aPolyClass = false ∧
    ((Class.methods .aPolyClass).filter (fun d => d.isVirtual)).map (fun d => d.name)
      = ["printMessage"] ∧
    (stateAt 23).uniq.lookup "ppp" = some ⟨.cls .aPolyClass, some 2⟩ ∧
    (stateAt 23).heap[2]? = some ⟨.inst .aDerivedClass, true, 0⟩ ∧
    exec (.destroyUnique "ppp") (stateAt 23) = .ok (stateAt 24) ∧
    (stateAt 24).torn = (stateAt 23).torn ++ [(2, .aPolyClass)] ∧
    (stateAt 24).released = (stateAt 23).released ++ [2] ∧
    (stateAt 26).torn.filter (fun e => e.1 = 2) = [(2, .aPolyClass)] := by
  decide

/-- C9: `main` runs to its end without a fault; its dereferences are, in order, `*p`,
`*pp`, `ppp->`, `sObj->`, `*p3`, `*ptr` twice in `acceptParameter` (with `ptr` bound to
`ptrBar`) and `*ptrBar`; at each of them the container owns a value. -/
theorem main_never_dereferences_empty :
    run main State.init = .ok (stateAt 26) ∧
    (trace main State.init).length = main.length + 1 ∧
    main.flatMap Op.derefs =
      [.u "p", .u "pp", .u "ppp", .u "sObj", .s "p3", .u "ptrBar", .u "ptrBar", .u "ptrBar"] ∧
    (∀ p ∈ main.zip (trace main State.init), ∀ d ∈ p.1.derefs, d.owning p.2 = true) ∧
    isOwningUnique "ptrBar" (stateAt 18) = true ∧
    exec (.cout [.str "ptrBar: ", .uderef "ptrBar", .str "\n\n"]) (stateAt 18)
      = .ok (stateAt 19) := by
  decide

/-- C10: `aDerivedClass` declares `printmessage` and nothing named `printMessage`, so
`aPolyClass::printMessage` has no overrider; calling `printMessage()` through a
`unique_ptr<aPolyClass>` that owns an `aDerivedClass` instance runs the body of
`aPolyClass::printMessage`, which appends `printMessage() defined in aPolyClass.` and
two newlines to the output. -/
theorem printMessage_not_overridden (s : State) (x : Name) (a : Addr) (c : Cell)
    (hx : s.uniq.lookup x = some ⟨.cls .aPolyClass, some a⟩)
    (hc : s.heap[a]? = some c) (halive : c.alive = true)
    (hobj : c.obj = .inst .aDerivedClass) :
    (Class.methods .aDerivedClass).map (fun d => d.name) = ["printmessage"] ∧
    "printMessage" ∉ (Class.methods .aDerivedClass).map (fun d => d.name) ∧
    dispatch .aPolyClass .aDerivedClass "printMessage" = some aPolyClass.printMessage ∧
    callMethod x "printMessage" s = .ok (aPolyClass.printMessage s) ∧
    (aPolyClass.printMessage s).out
      = s.out ++ "printMessage() defined in aPolyClass." ++ "\n\n" := by
  refine ⟨by decide, by decide, rfl, ?_, rfl⟩
  have hd : dispatch .aPolyClass .aDerivedClass "printMessage"
      = some aPolyClass.printMessage := rfl
  simp [callMethod, lookupUnique, cellAt, hx, hc, halive, hobj, hd]

/-- Witness for C10: the state in which `main` calls `ppp->printMessage()`. -/
theorem printMessage_not_overridden_witness :
    (stateAt 7).uniq.lookup "ppp" = some ⟨.cls .aPolyClass, some 2⟩ ∧
    (stateAt 7).heap[2]? = some ⟨.inst .aDerivedClass, true, 0⟩ ∧
    ((Class.methods .aDerivedClass).map (fun d => d.name) = ["printmessage"] ∧
    "printMessage" ∉ (Class.methods .aDerivedClass).map (fun d => d.name) ∧
    dispatch .aPolyClass .aDerivedClass "printMessage" = some aPolyClass.printMessage ∧
    callMethod "ppp" "printMessage" (stateAt 7) = .ok (aPolyClass.printMessage (stateAt 7)) ∧
    (aPolyClass.printMessage (stateAt 7)).out
      = (stateAt 7).out ++ "printMessage() defined in aPolyClass." ++ "\n\n") :=
  ⟨by decide, by decide,
    printMessage_not_overridden (stateAt 7) "ppp" 2 ⟨.inst .aDerivedClass, true, 0⟩
      (by decide) (by decide) rfl rfl⟩

end SmartPointers
